import Mathlib

/-!
# go-nbd: the export registry and the connection supervisor of `pkg/server/server.go`

A shallow embedding of `nbdServer` (`NewServer`, `AddExport`, `RemoveExport`,
`exportsAsSlice`, `startServing`, `trapPanic`) and the properties of the export
registry proved about it.

Conventions of the embedding.

* A Go result pair `(value, error)` is an `Except`; a returned `error` is an
  `Option Error` (`none` is Go's `nil`).
* A call that may panic ends in an `Outcome`: it returns or it panics. A type
  `β` of backends is the type of the values of the interface `backend.Backend`,
  the nil interface included; the method `String()` of a value returns or
  panics, and on the nil interface it panics.
* Code outside the server that a call may run (the backend supplier, the session
  handler) is a function that is passed in; a supplier reads and changes an
  environment of arbitrary type `W`, threaded through the calls.
* Every method that takes `s.lock` is one atomic step on the server value: the
  lock is free before and after each step, so the field itself carries no
  information between steps and is not a field of the model. `socket` is only
  used by `Start`/`startLoop` and is not a field of the model either.
* What a call does to the outside is recorded in a trace of `Event`s.
-/

namespace GoNbd

/-! ## Go values used by the server -/

/-- A Go `error` value: `errorString` is an error without a cause (what
`fmt.Errorf` returns when the format has no `%w`), `wrapError` is what
`fmt.Errorf` returns for a format with `%w`: a message and the wrapped error. -/
inductive Error where
  | errorString (s : String)
  | wrapError (msg : String) (err : Error)
deriving DecidableEq, Repr

/-- The method `Error()`: the message of the error. -/
def Error.Error : GoNbd.Error → String
  | .errorString s => s
  | .wrapError msg _ => msg

/-- The method `Unwrap()` as seen by `errors.Unwrap`: the wrapped error, if any. -/
def Error.Unwrap : GoNbd.Error → Option GoNbd.Error
  | .errorString _ => none
  | .wrapError _ err => some err

/-- The function `strings.ContainsAny(s, chars)`: some character of `chars` occurs in `s`. -/
def ContainsAny (s chars : String) : Bool :=
  s.toList.any fun c => decide (c ∈ chars.toList)

/-- The value a panic carries. -/
inductive PanicValue where
  | str (s : String)
  | err (e : Error)
deriving DecidableEq, Repr

/-- How a Go call ends: it returns a value or it panics. -/
inductive Outcome (α : Type) where
  | returned (a : α)
  | panicked (v : PanicValue)

/-- The methods of the interface `backend.Backend` that `server.go` calls: only
`String()`. A type `β` of backends is a type of values of the interface, each
with what a call of `String()` on it does: it returns a text, or it panics (as
it does on the nil interface, with a runtime error). -/
class Backend (β : Type) where
  String : β → Outcome String

/-- The type `BackendSupplier`, `func() (backend.Backend, error)`: run in an
environment `w`, it returns a backend or an error, and the environment it leaves. -/
abbrev BackendSupplier (W β : Type) := W → Except Error β × W

/-- Modelled from the spec: the struct `Export` is declared elsewhere in package
`server`; its fields are the three that `AddExport` fills in (spec §3: name,
description, backend). -/
structure Export (β : Type) where
  Name : String
  Description : String
  Backend : β
deriving DecidableEq, Repr

/-- Modelled from the spec: the struct `Options` is declared elsewhere in package
`server`; its fields are those of spec §3 (ServerOptions), the block sizes being
unsigned 32-bit numbers. -/
structure Options where
  ReadOnly : Bool
  MinimumBlockSize : Nat
  PreferredBlockSize : Nat
  MaximumBlockSize : Nat
deriving DecidableEq, Repr

/-- The struct `ServerOptions`: `Options` embedded, and two more fields. -/
structure ServerOptions extends Options where
  ListenOn : String
  AllowMultipleConnections : Bool
deriving DecidableEq, Repr

/-- A Go `map[string]*Export`: a finite map with pairwise distinct keys. The
`Export` a pointer leads to is never written after it is stored, so the map
holds the record itself. -/
abbrev ExportMap (β : Type) := AList fun _ : String => Export β

/-- The struct `nbdServer` (fields `opts` and `exports`). -/
structure nbdServer (β : Type) where
  opts : ServerOptions
  exports : ExportMap β

/-- What a call does to the outside: a line handed to `log.Printf`, or one
invocation of the backend supplier together with what it returned. -/
inductive Event (β : Type) where
  | log (line : String)
  | supplier (result : Except Error β)

/-- The number of supplier invocations in a trace. -/
def supplierCalls {β : Type} : List (Event β) → Nat
  | [] => 0
  | .supplier _ :: t => supplierCalls t + 1
  | .log _ :: t => supplierCalls t

/-! ## `NewServer` -/

/-- The state outside any one server: the package variable `serverInstance`
(nil, or a pointer) and the `nbdServer` values allocated so far; a pointer is an
index into `heap`. -/
structure Package (β : Type) where
  serverInstance : Option Nat
  heap : List (nbdServer β)

/-- The function `NewServer`: panics when `serverInstance` is set; otherwise
allocates a server with the given options and an empty map, stores its address
in `serverInstance` and returns it with a nil error. -/
def NewServer {β : Type} (opts : ServerOptions) (p : Package β) :
    Outcome (Nat × Option Error) × Package β :=
  if p.serverInstance ≠ none then
    (.panicked (.str "cannot have two server instances"), p)
  else
    let s : nbdServer β := { opts := opts, exports := ∅ }
    (.returned (p.heap.length, none),
      { serverInstance := some p.heap.length, heap := p.heap ++ [s] })

/-! ## `AddExport` and `RemoveExport` -/

/-- What a call of `AddExport` leaves: the panic that goes on to the caller
(`none` when the call returns), the returned error when it returns, the server,
the environment, and the trace of the call. -/
structure AddExportResult (W β : Type) where
  panic : Option PanicValue
  err : Option Error
  s : nbdServer β
  w : W
  trace : List (Event β)

/-- The method `AddExport`. The export is stored before `be.String()` is called
for the last log line: when that call panics, the panic goes on to the caller
(the deferred `Unlock` runs) and the export stays in the map. -/
def AddExport {W β : Type} [Backend β] (s : nbdServer β) (name description : String)
    (b : BackendSupplier W β) (w : W) : AddExportResult W β :=
  if ContainsAny name " \t" then
    { panic := none,
      err := some (.errorString ("export name [" ++ name ++ "] cannot contain whitespace ")),
      s := s, w := w, trace := [] }
  else if (s.exports.lookup name).isSome then
    { panic := none,
      err := some (.errorString ("export [" ++ name ++ "] already exists")),
      s := s, w := w, trace := [] }
  else
    match b w with
    | (.error err, w1) =>
      { panic := none,
        err := some (.wrapError
          ("error in call to backend supplier for export [" ++ name ++ "]: " ++ err.Error) err),
        s := s, w := w1,
        trace := [.log ("requesting backend for export [" ++ name ++ "]"),
                  .supplier (.error err)] }
    | (.ok be, w1) =>
      let e : Export β := { Name := name, Description := description, Backend := be }
      match Backend.String be with
      | .panicked v =>
        { panic := some v, err := none,
          s := { s with exports := s.exports.insert name e },
          w := w1,
          trace := [.log ("requesting backend for export [" ++ name ++ "]"),
                    .supplier (.ok be)] }
      | .returned str =>
        { panic := none, err := none,
          s := { s with exports := s.exports.insert name e },
          w := w1,
          trace := [.log ("requesting backend for export [" ++ name ++ "]"),
                    .supplier (.ok be),
                    .log ("added export [" ++ name ++ "] with backend " ++ str)] }

/-- The method `RemoveExport`: it returns nil and does nothing else. -/
def RemoveExport {β : Type} (s : nbdServer β) (_name : String) : Option Error × nbdServer β :=
  (none, s)

/-! ## `exportsAsSlice` -/

/-- The method `exportsAsSlice`. The `range` over the map visits every key once,
in an order the runtime picks: `order` is that enumeration of the keys. For each
visited key the export `*v` that the map holds under it is appended to the
slice. -/
def exportsAsSlice {β : Type} (s : nbdServer β) (order : List String) :
    List (Export β) × nbdServer β :=
  (order.foldl (fun exports k =>
      match s.exports.lookup k with
      | some v => exports ++ [v]
      | none => exports) [], s)

/-! ## `startServing` and `trapPanic` -/

/-- A `net.Conn` as far as the server looks at it: whether `Close` has been
called on it. -/
structure Conn where
  closed : Bool
deriving DecidableEq, Repr

/-- The method `Close` of a connection: the connection is closed afterwards;
closing it a second time returns an error. -/
def Conn.Close (c : Conn) : Option Error × Conn :=
  (if c.closed then some (.errorString "use of closed network connection") else none,
    { c with closed := true })

/-- The session handler `Handle(conn, exports, options)`, declared elsewhere in
package `server`: any function that, given the connection, the exports and the
options, returns an error or nil, or panics, and leaves the connection in some
state. -/
abbrev Handler (β : Type) := Conn → List (Export β) → Options → Outcome (Option Error) × Conn

/-- The text `%v` prints for a panic value. -/
def PanicValue.format : PanicValue → String
  | .str s => s
  | .err e => e.Error

/-- What a call of `startServing` or `trapPanic` leaves: the panic that goes on
to the caller (`none` when the call returns), the connection, the server and the
lines logged. -/
structure ServingResult (β : Type) where
  panic : Option PanicValue
  conn : Conn
  s : nbdServer β
  log : List String

/-- The method `trapPanic`, run as a deferred call: `panicking` is the panic
under way when the deferred call starts, which is what `recover()` returns, the
panic ending there. -/
def trapPanic {β : Type} (s : nbdServer β) (conn : Conn) (panicking : Option PanicValue) :
    ServingResult β :=
  let conn1 := conn.Close.2
  match panicking with
  | some err =>
    { panic := none, conn := conn1, s := s,
      log := ["client disconnected with error: " ++ err.format] }
  | none => { panic := none, conn := conn1, s := s, log := [] }

/-- The method `startServing`: the body calls `Handle` on the slice of exports
and panics with the error it returns, if any; `trapPanic` runs when the body
ends, by return or by panic. -/
def startServing {β : Type} (s : nbdServer β) (conn : Conn) (Handle : Handler β)
    (order : List String) : ServingResult β :=
  let l := exportsAsSlice s order
  let h := Handle conn l.1 l.2.opts.toOptions
  let body : Option PanicValue :=
    match h.1 with
    | .returned none => none
    | .returned (some err) => some (.err err)
    | .panicked v => some v
  trapPanic l.2 h.2 body

/-! ## Sequences of registry calls -/

/-- A call of one of the two registry methods of the interface `Server`. -/
inductive Call (W β : Type) where
  | AddExport (name description : String) (b : BackendSupplier W β)
  | RemoveExport (name : String)

/-- A server in its environment, with how its calls have ended so far (in call
order: the returned error, or the panic) and the trace of those calls. -/
structure Run (W β : Type) where
  s : nbdServer β
  w : W
  results : List (Outcome (Option Error))
  trace : List (Event β)

/-- The start of a run. -/
def Run.start {W β : Type} (s : nbdServer β) (w : W) : Run W β :=
  { s := s, w := w, results := [], trace := [] }

/-- How a call of `AddExport` ended. -/
def AddExportResult.outcome {W β : Type} (a : AddExportResult W β) : Outcome (Option Error) :=
  match a.panic with
  | some v => .panicked v
  | none => .returned a.err

/-- One call made on the server of a run. A caller that recovers from the panic
of a call goes on with the server as the call left it. -/
def Run.call {W β : Type} [Backend β] (r : Run W β) : Call W β → Run W β
  | .AddExport name description b =>
    let a := AddExport r.s name description b r.w
    { s := a.s, w := a.w, results := r.results ++ [a.outcome], trace := r.trace ++ a.trace }
  | .RemoveExport name =>
    let a := RemoveExport r.s name
    { s := a.2, w := r.w, results := r.results ++ [.returned a.1], trace := r.trace }

/-- The calls of a list made one after the other. -/
def Run.calls {W β : Type} [Backend β] (r : Run W β) (cs : List (Call W β)) : Run W β :=
  cs.foldl Run.call r

/-- The server states a program can see: those a server returned by `NewServer`
is in after some sequence of `AddExport` and `RemoveExport` calls. -/
def Reachable {β : Type} [Backend β] (s : nbdServer β) : Prop :=
  ∃ (W : Type) (opts : ServerOptions) (p p1 : Package β) (ptr : Nat) (s0 : nbdServer β)
    (w : W) (cs : List (Call W β)),
    NewServer opts p = (.returned (ptr, none), p1) ∧ p1.heap[ptr]? = some s0 ∧
      ((Run.start s0 w).calls cs).s = s

/-! ## Words of the specification -/

/-- Whitespace as the specification uses the word: space, tab, newline, carriage
return and every other character with the Unicode property White_Space (the
characters for which `unicode.IsSpace` of Go holds). -/
def isWhitespace (c : Char) : Bool :=
  c.toNat = 0x20 || (0x09 ≤ c.toNat && c.toNat ≤ 0x0D) || c.toNat = 0x85 || c.toNat = 0xA0 ||
  c.toNat = 0x1680 || (0x2000 ≤ c.toNat && c.toNat ≤ 0x200A) || c.toNat = 0x2028 ||
  c.toNat = 0x2029 || c.toNat = 0x202F || c.toNat = 0x205F || c.toNat = 0x3000

/-- A name that contains a whitespace character. -/
def hasWhitespace (name : String) : Bool := name.toList.any isWhitespace

/-- The error `AddExport` returns for a name it takes to be invalid. -/
def invalidNameError (name : String) : Error :=
  .errorString ("export name [" ++ name ++ "] cannot contain whitespace ")

/-- The error `AddExport` returns for a name that is registered already. -/
def duplicateExportError (name : String) : Error :=
  .errorString ("export [" ++ name ++ "] already exists")

/-- Backends for examples: a backend is the text its `String()` returns. -/
instance : Backend String := ⟨fun b => .returned b⟩

/-- Options for examples. -/
def exampleOpts : ServerOptions :=
  { ReadOnly := false, MinimumBlockSize := 1, PreferredBlockSize := 4096,
    MaximumBlockSize := 4294967295, ListenOn := ":10809", AllowMultipleConnections := true }

/-- A server with an empty map, as `NewServer` builds it. -/
def exampleServer : nbdServer String := { opts := exampleOpts, exports := ∅ }

/-- A supplier that returns the backend `be` and counts its invocations in the environment. -/
def okSupplier (be : String) : BackendSupplier Nat String := fun n => (.ok be, n + 1)

/-- A supplier that returns the error `e` and counts its invocations in the environment. -/
def failSupplier (e : Error) : BackendSupplier Nat String := fun n => (.error e, n + 1)

/-- The panic of a method call on the nil interface. -/
def nilDereference : PanicValue :=
  .err (.errorString "runtime error: invalid memory address or nil pointer dereference")

/-- Backends for examples, the nil interface included: `none` is nil, on which
`String()` panics; `some t` is a backend whose `String()` returns `t`. -/
instance : Backend (Option String) :=
  ⟨fun b => match b with
    | none => .panicked nilDereference
    | some t => .returned t⟩

/-- A server with an empty map whose backends may be nil. -/
def exampleServerNil : nbdServer (Option String) := { opts := exampleOpts, exports := ∅ }

/-- A supplier that returns the nil interface and a nil error, and counts its
invocations in the environment. -/
def nilSupplier : BackendSupplier Nat (Option String) := fun n => (.ok none, n + 1)

/-- Two exports registered one after the other on the example server. -/
def twoExports : nbdServer String :=
  (AddExport (AddExport exampleServer "a" "one" (okSupplier "m1") 0).s "b" "two"
    (okSupplier "m2") 1).s

/-- One registration to make: a name, a description and a supplier. -/
abbrev Registration (W β : Type) := String × String × BackendSupplier W β

/-- The call of `AddExport` that makes a registration. -/
def Registration.toCall {W β : Type} (a : Registration W β) : Call W β :=
  .AddExport a.1 a.2.1 a.2.2

/-- A supplier invocation that succeeded: it returned no error, and a backend on
which `String()` returns. -/
def Succeeded {β : Type} [Backend β] (result : Except Error β) : Prop :=
  ∃ be str, result = .ok be ∧ Backend.String be = .returned str

/-! ## Lemmas on `AddExport` -/

/-- A name without whitespace passes the test `AddExport` makes on the name. -/
theorem containsAny_of_hasWhitespace_false (name : String) (h : hasWhitespace name = false) :
    ContainsAny name " \t" = false := by
  unfold hasWhitespace at h
  unfold ContainsAny
  rw [List.any_eq_false] at h ⊢
  intro c hc hmem
  have hc2 := h c hc
  have hcases : c = ' ' ∨ c = '\t' := by
    have : c ∈ [' ', '\t'] := by simpa using hmem
    simpa using this
  rcases hcases with rfl | rfl
  · exact hc2 (by decide)
  · exact hc2 (by decide)

/-- The call on a name with a space or a tab. -/
theorem AddExport_invalid {W β : Type} [Backend β] (s : nbdServer β) (name description : String)
    (b : BackendSupplier W β) (w : W) (h : ContainsAny name " \t" = true) :
    AddExport s name description b w =
      { panic := none, err := some (invalidNameError name), s := s, w := w, trace := [] } := by
  simp [AddExport, h, invalidNameError]

/-- The call on a registered name without space and tab. -/
theorem AddExport_duplicate {W β : Type} [Backend β] (s : nbdServer β) (name description : String)
    (b : BackendSupplier W β) (w : W) (h : ContainsAny name " \t" = false)
    (hmem : name ∈ s.exports) :
    AddExport s name description b w =
      { panic := none, err := some (duplicateExportError name), s := s, w := w,
        trace := [] } := by
  have hl : (s.exports.lookup name).isSome = true := AList.lookup_isSome.2 hmem
  simp [AddExport, h, hl, duplicateExportError]

/-- The call on a new name without space and tab, the supplier returning an error. -/
theorem AddExport_supplier_error {W β : Type} [Backend β] (s : nbdServer β)
    (name description : String) (b : BackendSupplier W β) (w w1 : W) (e : Error)
    (h : ContainsAny name " \t" = false) (hmem : name ∉ s.exports) (hb : b w = (.error e, w1)) :
    AddExport s name description b w =
      { panic := none,
        err := some (.wrapError
          ("error in call to backend supplier for export [" ++ name ++ "]: " ++ e.Error) e),
        s := s, w := w1,
        trace := [.log ("requesting backend for export [" ++ name ++ "]"),
                  .supplier (.error e)] } := by
  have hl : s.exports.lookup name = none := AList.lookup_eq_none.2 hmem
  simp [AddExport, h, hl, hb]

/-- The call on a new name without space and tab, the supplier returning a
backend on which `String()` returns. -/
theorem AddExport_supplier_ok {W β : Type} [Backend β] (s : nbdServer β)
    (name description : String) (b : BackendSupplier W β) (w w1 : W) (be : β) (str : String)
    (h : ContainsAny name " \t" = false) (hmem : name ∉ s.exports) (hb : b w = (.ok be, w1))
    (hstr : Backend.String be = .returned str) :
    AddExport s name description b w =
      { panic := none, err := none,
        s := { s with exports := s.exports.insert name
                        ({ Name := name, Description := description, Backend := be } : Export β) },
        w := w1,
        trace := [.log ("requesting backend for export [" ++ name ++ "]"),
                  .supplier (.ok be),
                  .log ("added export [" ++ name ++ "] with backend " ++ str)] } := by
  have hl : s.exports.lookup name = none := AList.lookup_eq_none.2 hmem
  simp [AddExport, h, hl, hb, hstr]

/-- The call on a new name without space and tab, the supplier returning a
backend on which `String()` panics: the export is stored and the panic goes on. -/
theorem AddExport_supplier_ok_panics {W β : Type} [Backend β] (s : nbdServer β)
    (name description : String) (b : BackendSupplier W β) (w w1 : W) (be : β) (v : PanicValue)
    (h : ContainsAny name " \t" = false) (hmem : name ∉ s.exports) (hb : b w = (.ok be, w1))
    (hstr : Backend.String be = .panicked v) :
    AddExport s name description b w =
      { panic := some v, err := none,
        s := { s with exports := s.exports.insert name
                        ({ Name := name, Description := description, Backend := be } : Export β) },
        w := w1,
        trace := [.log ("requesting backend for export [" ++ name ++ "]"),
                  .supplier (.ok be)] } := by
  have hl : s.exports.lookup name = none := AList.lookup_eq_none.2 hmem
  simp [AddExport, h, hl, hb, hstr]

/-- On a new name without space and tab the supplier is invoked, and what it
returned is in the trace. -/
theorem AddExport_supplier_invoked {W β : Type} [Backend β] (s : nbdServer β)
    (name description : String) (b : BackendSupplier W β) (w : W)
    (h : ContainsAny name " \t" = false) (hmem : name ∉ s.exports) :
    Event.supplier (b w).1 ∈ (AddExport s name description b w).trace := by
  rcases hb : b w with ⟨res, w1⟩
  cases res with
  | error e =>
    rw [AddExport_supplier_error s name description b w w1 e h hmem hb]
    simp
  | ok be =>
    cases hstr : Backend.String be with
    | returned str =>
      rw [AddExport_supplier_ok s name description b w w1 be str h hmem hb hstr]
      simp
    | panicked v =>
      rw [AddExport_supplier_ok_panics s name description b w w1 be v h hmem hb hstr]
      simp

/-- The two ways a call of `AddExport` ends: with an error, no new registry and
at most a failed supplier invocation; or, by return of nil or by the panic of
`String()`, after one supplier invocation that returned a backend, the name
(without space and tab, and not registered before) being registered with that
backend. -/
theorem AddExport_cases {W β : Type} [Backend β] (s : nbdServer β) (name description : String)
    (b : BackendSupplier W β) (w : W) :
    ((AddExport s name description b w).err ≠ none ∧ (AddExport s name description b w).s = s ∧
      ∀ be, Event.supplier (.ok be) ∉ (AddExport s name description b w).trace) ∨
    (∃ be w1, ContainsAny name " \t" = false ∧ name ∉ s.exports ∧ b w = (.ok be, w1) ∧
      (AddExport s name description b w).err = none ∧
      (AddExport s name description b w).s =
        { s with exports := s.exports.insert name
                  ({ Name := name, Description := description, Backend := be } : Export β) } ∧
      Event.supplier (.ok be) ∈ (AddExport s name description b w).trace) := by
  by_cases h : ContainsAny name " \t" = true
  · left
    rw [AddExport_invalid s name description b w h]
    simp
  · have h0 : ContainsAny name " \t" = false := by simpa using h
    by_cases hmem : name ∈ s.exports
    · left
      rw [AddExport_duplicate s name description b w h0 hmem]
      simp
    · rcases hb : b w with ⟨res, w1⟩
      cases res with
      | error e =>
        left
        rw [AddExport_supplier_error s name description b w w1 e h0 hmem hb]
        simp
      | ok be =>
        right
        refine ⟨be, w1, h0, hmem, rfl, ?_⟩
        cases hstr : Backend.String be with
        | returned str =>
          rw [AddExport_supplier_ok s name description b w w1 be str h0 hmem hb hstr]
          simp
        | panicked v =>
          rw [AddExport_supplier_ok_panics s name description b w w1 be v h0 hmem hb hstr]
          simp

/-- A call of `AddExport` leaves every registered name with its export. -/
theorem AddExport_lookup_stable {W β : Type} [Backend β] (s : nbdServer β)
    (name description : String) (b : BackendSupplier W β) (w : W) (k : String) (e : Export β)
    (h : s.exports.lookup k = some e) :
    (AddExport s name description b w).s.exports.lookup k = some e := by
  rcases AddExport_cases s name description b w with ⟨_, hs, _⟩ | ⟨be, w1, _, hmem, _, _, hs, _⟩
  · rw [hs]; exact h
  · rw [hs]
    have hk : k ∈ s.exports := AList.lookup_isSome.1 (by simp [h])
    have hne : k ≠ name := fun heq => hmem (heq ▸ hk)
    simpa [AList.lookup_insert_ne hne] using h

/-- A property of runs that holds at a run and is kept by every call holds after
any list of calls. -/
theorem Run.calls_induction {W β : Type} [Backend β] (P : Run W β → Prop)
    (hstep : ∀ r c, P r → P (r.call c)) (cs : List (Call W β)) :
    ∀ r, P r → P (r.calls cs) := by
  induction cs with
  | nil => intro r h; exact h
  | cons c cs ih =>
    intro r h
    exact ih (r.call c) (hstep r c h)

/-- The calls of a list followed by one more call. -/
theorem Run.calls_append_singleton {W β : Type} [Backend β] (r : Run W β)
    (cs : List (Call W β)) (c : Call W β) : r.calls (cs ++ [c]) = (r.calls cs).call c := by
  simp [Run.calls, List.foldl_append]

/-- A call leaves every registered name with its export. -/
theorem Run.call_lookup_stable {W β : Type} [Backend β] (r : Run W β) (c : Call W β)
    (k : String) (e : Export β) (h : r.s.exports.lookup k = some e) :
    (r.call c).s.exports.lookup k = some e := by
  cases c with
  | AddExport name description b =>
    exact AddExport_lookup_stable r.s name description b r.w k e h
  | RemoveExport name => exact h

/-- A list of calls leaves every registered name with its export. -/
theorem Run.calls_lookup_stable {W β : Type} [Backend β] (r : Run W β) (cs : List (Call W β))
    (k : String) (e : Export β) (h : r.s.exports.lookup k = some e) :
    (r.calls cs).s.exports.lookup k = some e :=
  Run.calls_induction (fun r1 => r1.s.exports.lookup k = some e)
    (fun r1 c h1 => Run.call_lookup_stable r1 c k e h1) cs r h

/-- The server that a successful `NewServer` leaves at the returned address. -/
theorem NewServer_returned {β : Type} (opts : ServerOptions) (p p1 : Package β) (ptr : Nat)
    (err : Option Error) (s0 : nbdServer β)
    (hnew : NewServer opts p = (.returned (ptr, err), p1)) (hs0 : p1.heap[ptr]? = some s0) :
    p.serverInstance = none ∧ err = none ∧ s0 = { opts := opts, exports := ∅ } ∧
      p1.serverInstance = some ptr := by
  unfold NewServer at hnew
  by_cases h : p.serverInstance = none
  · simp only [h, ne_eq, not_true_eq_false, if_false] at hnew
    injection hnew with h1 h2
    injection h1 with h1
    injection h1 with h3 h4
    subst h2 h3
    simp at hs0
    exact ⟨h, h4.symm, hs0.symm, rfl⟩
  · simp [h] at hnew

/-- The names registered in a reachable server contain neither space nor tab. -/
theorem Reachable.keys_valid {β : Type} [Backend β] (s : nbdServer β) (hs : Reachable s)
    (k : String) (hk : k ∈ s.exports) : ContainsAny k " \t" = false := by
  obtain ⟨W, opts, p, p1, ptr, s0, w, cs, hnew, hs0, hrun⟩ := hs
  have h0 := (NewServer_returned opts p p1 ptr none s0 hnew hs0).2.2.1
  have key : ∀ k, k ∈ ((Run.start s0 w).calls cs).s.exports → ContainsAny k " \t" = false := by
    refine Run.calls_induction
      (fun r : Run W β => ∀ k, k ∈ r.s.exports → ContainsAny k " \t" = false) ?_ cs
      (Run.start s0 w) ?_
    · intro r c ih k hk
      cases c with
      | AddExport name description b =>
        have hk1 : k ∈ (AddExport r.s name description b r.w).s.exports := hk
        rcases AddExport_cases r.s name description b r.w with
          ⟨_, hs, _⟩ | ⟨be, w1, hv, _, _, _, hs, _⟩
        · rw [hs] at hk1; exact ih k hk1
        · rw [hs] at hk1
          rcases (AList.mem_insert r.s.exports).1 hk1 with rfl | hmem
          · exact hv
          · exact ih k hmem
      | RemoveExport name => exact ih k hk
    · intro k hk
      rw [h0] at hk
      exact absurd hk (AList.not_mem_empty k)
  exact key k (hrun ▸ hk)

/-- The slice built by the loop of `exportsAsSlice`: the exports found under the
visited keys. -/
theorem exportsAsSlice_eq_filterMap {β : Type} (s : nbdServer β) (order : List String) :
    (exportsAsSlice s order).1 = order.filterMap fun k => s.exports.lookup k := by
  have key : ∀ (l : List String) (init : List (Export β)),
      l.foldl (fun exports k =>
        match s.exports.lookup k with
        | some v => exports ++ [v]
        | none => exports) init = init ++ l.filterMap fun k => s.exports.lookup k := by
    intro l
    induction l with
    | nil => intro init; simp
    | cons k l ih =>
      intro init
      cases h : s.exports.lookup k with
      | none => simp [List.foldl_cons, h, ih]
      | some v => simp [List.foldl_cons, h, ih]
  simpa [exportsAsSlice] using key order []

/-- The exports found under the keys of a map, in the order of its entries, are
the values of the entries. -/
theorem keys_filterMap_lookup {β : Type} (m : ExportMap β) :
    (m.keys.filterMap fun k => m.lookup k) = m.entries.map Sigma.snd := by
  have hkeys : m.keys = m.entries.map Sigma.fst := rfl
  rw [hkeys, List.filterMap_map, ← List.filterMap_eq_map]
  apply List.filterMap_congr
  intro kv hkv
  have hin : (⟨kv.1, kv.2⟩ : Sigma fun _ : String => Export β) ∈ m.entries := hkv
  exact AList.mem_lookup_iff.2 hin

/-- Visiting the keys in any order gives a permutation of the values of the map. -/
theorem exportsAsSlice_perm_values {β : Type} (s : nbdServer β) (order : List String)
    (horder : order.Perm s.exports.keys) :
    (exportsAsSlice s order).1.Perm (s.exports.entries.map Sigma.snd) := by
  rw [exportsAsSlice_eq_filterMap, ← keys_filterMap_lookup]
  exact horder.filterMap _

/-- An export is in the slice exactly when some name maps to it. -/
theorem exportsAsSlice_mem {β : Type} (s : nbdServer β) (order : List String)
    (horder : order.Perm s.exports.keys) (e : Export β) :
    e ∈ (exportsAsSlice s order).1 ↔ ∃ k, s.exports.lookup k = some e := by
  rw [(exportsAsSlice_perm_values s order horder).mem_iff]
  constructor
  · intro he
    obtain ⟨kv, hkv, rfl⟩ := List.mem_map.1 he
    have hin : (⟨kv.1, kv.2⟩ : Sigma fun _ : String => Export β) ∈ s.exports.entries := hkv
    exact ⟨kv.1, AList.mem_lookup_iff.2 hin⟩
  · rintro ⟨k, hk⟩
    have : (⟨k, e⟩ : Sigma fun _ : String => Export β) ∈ s.exports.entries :=
      AList.mem_lookup_iff.1 hk
    exact List.mem_map.2 ⟨⟨k, e⟩, this, rfl⟩

/-- The trace of a run only grows. -/
theorem Run.calls_trace_mono {W β : Type} [Backend β] (r : Run W β) (cs : List (Call W β))
    (ev : Event β) (h : ev ∈ r.trace) : ev ∈ (r.calls cs).trace := by
  refine Run.calls_induction (fun r1 : Run W β => ev ∈ r1.trace) ?_ cs r h
  intro r1 c h1
  cases c with
  | AddExport name description b => exact List.mem_append_left _ h1
  | RemoveExport name => exact h1

/-- Registrations with distinct names, free of whitespace and not registered at
the start of the run, every supplier invocation of the run having succeeded:
each call returns nil and each name is registered with its description. -/
theorem Run.calls_registrations {W β : Type} [Backend β] (adds : List (Registration W β)) :
    ∀ r : Run W β, (adds.map Prod.fst).Nodup →
      (∀ a ∈ adds, hasWhitespace a.1 = false) →
      (∀ a ∈ adds, a.1 ∉ r.s.exports) →
      (∀ res, Event.supplier res ∈ (r.calls (adds.map Registration.toCall)).trace →
        Succeeded res) →
      (r.calls (adds.map Registration.toCall)).results =
        r.results ++ List.replicate adds.length (.returned none) ∧
      ∀ a ∈ adds, ∃ be, (r.calls (adds.map Registration.toCall)).s.exports.lookup a.1 =
        some { Name := a.1, Description := a.2.1, Backend := be } := by
  induction adds with
  | nil => intro r _ _ _ _; simp [Run.calls]
  | cons a adds ih =>
    intro r hnd hvalid habsent hsucc
    have hcall : r.calls ((a :: adds).map Registration.toCall) =
        (r.call a.toCall).calls (adds.map Registration.toCall) := rfl
    rw [hcall] at hsucc ⊢
    have hv := containsAny_of_hasWhitespace_false a.1 (hvalid a (List.mem_cons_self _ _))
    have hinv := AddExport_supplier_invoked r.s a.1 a.2.1 a.2.2 r.w hv
      (habsent a (List.mem_cons_self _ _))
    have hin1 : Event.supplier (a.2.2 r.w).1 ∈ (r.call a.toCall).trace :=
      List.mem_append_right _ hinv
    obtain ⟨be, str, hres, hstr⟩ := hsucc _ (Run.calls_trace_mono _ _ _ hin1)
    have hb : a.2.2 r.w = (.ok be, (a.2.2 r.w).2) := Prod.ext hres rfl
    have hadd := AddExport_supplier_ok r.s a.1 a.2.1 a.2.2 r.w (a.2.2 r.w).2 be str hv
      (habsent a (List.mem_cons_self _ _)) hb hstr
    have hnd1 : a.1 ∉ adds.map Prod.fst ∧ (adds.map Prod.fst).Nodup :=
      List.nodup_cons.1 (show (a.1 :: adds.map Prod.fst).Nodup from hnd)
    have hs1 : (r.call a.toCall).s = (AddExport r.s a.1 a.2.1 a.2.2 r.w).s := rfl
    have herr1 : (r.call a.toCall).results = r.results ++ [.returned none] := by
      show r.results ++ [(AddExport r.s a.1 a.2.1 a.2.2 r.w).outcome] =
        r.results ++ [.returned none]
      rw [hadd]
      rfl
    have habsent1 : ∀ a1 ∈ adds, a1.1 ∉ (r.call a.toCall).s.exports := by
      intro a1 ha1 hin
      rw [hs1, hadd] at hin
      rcases (AList.mem_insert r.s.exports).1 hin with heq | hold
      · exact hnd1.1 (heq ▸ List.mem_map.2 ⟨a1, ha1, rfl⟩)
      · exact habsent a1 (List.mem_cons_of_mem _ ha1) hold
    obtain ⟨ih1, ih2⟩ := ih (r.call a.toCall) hnd1.2
      (fun a1 h1 => hvalid a1 (List.mem_cons_of_mem _ h1)) habsent1 hsucc
    refine ⟨?_, ?_⟩
    · rw [ih1, herr1]
      simp [List.replicate_succ]
    · intro a1 ha1
      rcases List.mem_cons.1 ha1 with rfl | hin
      · refine ⟨be, Run.calls_lookup_stable _ _ _ _ ?_⟩
        rw [hs1, hadd]
        simp
      · exact ih2 a1 hin

/-- In a run that starts with an empty registry, every entry has its key as
name, its backend was returned by the supplier of a call of `AddExport` with
that name and description, and that return is in the trace. -/
theorem Run.calls_entries {W β : Type} [Backend β] (s0 : nbdServer β) (w : W)
    (hempty : s0.exports = ∅) (cs : List (Call W β)) :
    ∀ k e, ((Run.start s0 w).calls cs).s.exports.lookup k = some e →
      e.Name = k ∧ Event.supplier (.ok e.Backend) ∈ ((Run.start s0 w).calls cs).trace ∧
      ∃ b w1 w2, Call.AddExport k e.Description b ∈ cs ∧ b w1 = (.ok e.Backend, w2) := by
  induction cs using List.reverseRecOn with
  | nil =>
    intro k e h
    have h1 : s0.exports.lookup k = some e := h
    rw [hempty] at h1
    simp at h1
  | append_singleton cs c ih =>
    intro k e h
    rw [Run.calls_append_singleton] at h ⊢
    cases c with
    | RemoveExport name =>
      obtain ⟨h1, h2, b, w1, w2, h3, h4⟩ := ih k e h
      exact ⟨h1, h2, b, w1, w2, List.mem_append_left _ h3, h4⟩
    | AddExport name description b =>
      have hs : ((Run.start s0 w).calls cs |>.call (.AddExport name description b)).s =
          (AddExport ((Run.start s0 w).calls cs).s name description b
            ((Run.start s0 w).calls cs).w).s := rfl
      have ht : ((Run.start s0 w).calls cs |>.call (.AddExport name description b)).trace =
          ((Run.start s0 w).calls cs).trace ++
            (AddExport ((Run.start s0 w).calls cs).s name description b
              ((Run.start s0 w).calls cs).w).trace := rfl
      rw [hs] at h
      rw [ht]
      rcases AddExport_cases ((Run.start s0 w).calls cs).s name description b
          ((Run.start s0 w).calls cs).w with
        ⟨_, hsame, _⟩ | ⟨be, w1, _, _, hb, _, hnew, htr⟩
      · rw [hsame] at h
        obtain ⟨h1, h2, b1, w1, w2, h3, h4⟩ := ih k e h
        exact ⟨h1, List.mem_append_left _ h2, b1, w1, w2, List.mem_append_left _ h3, h4⟩
      · rw [hnew] at h
        by_cases hk : k = name
        · subst hk
          have he : e = { Name := k, Description := description, Backend := be } := by
            simpa using h.symm
          subst he
          exact ⟨rfl, List.mem_append_right _ htr, b, _, w1,
            List.mem_append_right _ (List.mem_singleton_self _), hb⟩
        · have h1 : ((Run.start s0 w).calls cs).s.exports.lookup k = some e := by
            simpa [AList.lookup_insert_ne hk] using h
          obtain ⟨h1, h2, b1, w1, w2, h3, h4⟩ := ih k e h1
          exact ⟨h1, List.mem_append_left _ h2, b1, w1, w2, List.mem_append_left _ h3, h4⟩

/-- When every entry has its key as name, the names in the slice are pairwise distinct. -/
theorem exportsAsSlice_names_nodup {β : Type} (s : nbdServer β)
    (hname : ∀ k e, s.exports.lookup k = some e → e.Name = k)
    (order : List String) (horder : order.Perm s.exports.keys) :
    ((exportsAsSlice s order).1.map Export.Name).Nodup := by
  have hperm := (exportsAsSlice_perm_values s order horder).map Export.Name
  rw [List.map_map] at hperm
  have hkeys : s.exports.entries.map (Export.Name ∘ Sigma.snd) = s.exports.keys := by
    apply List.map_congr_left
    intro kv hkv
    have hin : (⟨kv.1, kv.2⟩ : Sigma fun _ : String => Export β) ∈ s.exports.entries := hkv
    exact hname kv.1 kv.2 (AList.mem_lookup_iff.2 hin)
  rw [hkeys] at hperm
  exact hperm.nodup_iff.2 s.exports.keys_nodup

/-- The deferred `trapPanic` ends every panic and closes the connection. -/
theorem trapPanic_recovers {β : Type} (s : nbdServer β) (conn : Conn)
    (panicking : Option PanicValue) :
    (trapPanic s conn panicking).panic = none ∧
    (trapPanic s conn panicking).conn.closed = true ∧
    (trapPanic s conn panicking).s.exports = s.exports := by
  cases panicking <;> exact ⟨rfl, rfl, rfl⟩

/-! ## The registry contract -/

/-- Claim C1 as stated fails: "disk0" has no whitespace and is not registered,
the supplier returns the nil interface and a nil error, and `AddExport` does not
return nil: it panics at `be.String()`, the name being registered already. -/
theorem AddExport_nil_backend_panics :
    hasWhitespace "disk0" = false ∧ "disk0" ∉ exampleServerNil.exports ∧
    nilSupplier 0 = (.ok none, 1) ∧
    (AddExport exampleServerNil "disk0" "first" nilSupplier 0).panic = some nilDereference ∧
    (AddExport exampleServerNil "disk0" "first" nilSupplier 0).s.exports.lookup "disk0" =
      some { Name := "disk0", Description := "first", Backend := none } := by
  refine ⟨by decide, by decide, rfl, ?_, ?_⟩
  · rw [AddExport_supplier_ok_panics exampleServerNil "disk0" "first" nilSupplier 0 1 none
      nilDereference (by decide) (by decide) rfl rfl]
  · rw [AddExport_supplier_ok_panics exampleServerNil "disk0" "first" nilSupplier 0 1 none
      nilDereference (by decide) (by decide) rfl rfl]
    simp

/-- Claim C1, amended: on a name without whitespace that is not registered, with
a supplier that returns no error and a backend `be` on which `String()` returns
(so `be` is not the nil interface), `AddExport` returns nil without panic, has
invoked the supplier exactly once (one invocation in the trace, and the
environment is the one that invocation leaves), and leaves a registry in which
the name maps to the export with that name, description and backend, every other
key maps to what it mapped to before, and no other key is added. -/
theorem AddExport_registers {W β : Type} [Backend β] (s : nbdServer β)
    (name description : String) (b : BackendSupplier W β) (w w1 : W) (be : β) (str : String)
    (hname : hasWhitespace name = false) (habsent : name ∉ s.exports)
    (hb : b w = (.ok be, w1)) (hstr : Backend.String be = .returned str) :
    (AddExport s name description b w).panic = none ∧
    (AddExport s name description b w).err = none ∧
    supplierCalls (AddExport s name description b w).trace = 1 ∧
    Event.supplier (.ok be) ∈ (AddExport s name description b w).trace ∧
    (AddExport s name description b w).w = w1 ∧
    (AddExport s name description b w).s.exports.lookup name =
      some { Name := name, Description := description, Backend := be } ∧
    (∀ k, k ≠ name →
      (AddExport s name description b w).s.exports.lookup k = s.exports.lookup k) ∧
    (∀ k, k ∈ (AddExport s name description b w).s.exports ↔ k = name ∨ k ∈ s.exports) ∧
    (AddExport s name description b w).s.opts = s.opts := by
  rw [AddExport_supplier_ok s name description b w w1 be str
    (containsAny_of_hasWhitespace_false name hname) habsent hb hstr]
  refine ⟨rfl, rfl, rfl, by simp, rfl, ?_, ?_, ?_, rfl⟩
  · simp
  · intro k hk
    simp [AList.lookup_insert_ne hk]
  · intro k
    simp

/-- Witness of C1, amended: the name "disk0" on the empty registry. -/
theorem AddExport_registers_witness :
    (AddExport exampleServer "disk0" "first" (okSupplier "mem") 0).panic = none ∧
    (AddExport exampleServer "disk0" "first" (okSupplier "mem") 0).err = none ∧
    supplierCalls (AddExport exampleServer "disk0" "first" (okSupplier "mem") 0).trace = 1 ∧
    (AddExport exampleServer "disk0" "first" (okSupplier "mem") 0).w = 1 ∧
    (AddExport exampleServer "disk0" "first" (okSupplier "mem") 0).s.exports.lookup "disk0" =
      some { Name := "disk0", Description := "first", Backend := "mem" } :=
  have h := AddExport_registers exampleServer "disk0" "first" (okSupplier "mem") 0 1 "mem" "mem"
    (by decide) (by decide) rfl rfl
  ⟨h.1, h.2.1, h.2.2.1, h.2.2.2.2.1, h.2.2.2.2.2.1⟩

/-- Claim C2, at the name "a\nb": the name contains a newline, which is
whitespace, and `AddExport` on the empty registry returns nil, has invoked the
supplier once and has registered the name; the test on the name looks for space
and tab only. -/
theorem AddExport_accepts_newline :
    hasWhitespace "a\nb" = true ∧
    (AddExport exampleServer "a\nb" "d" (okSupplier "mem") 0).err = none ∧
    supplierCalls (AddExport exampleServer "a\nb" "d" (okSupplier "mem") 0).trace = 1 ∧
    (AddExport exampleServer "a\nb" "d" (okSupplier "mem") 0).s.exports.lookup "a\nb" =
      some { Name := "a\nb", Description := "d", Backend := "mem" } ∧
    (AddExport exampleServer "a\nb" "d" (okSupplier "mem") 0).panic = none := by
  decide

/-- Claim C3 as stated fails: of two calls with the name "disk0", free of
whitespace and not registered, both suppliers returning the nil interface and a
nil error, none succeeds: the first panics at `be.String()` after it has stored
the export, the second gets the duplicate error. -/
theorem AddExport_twice_nil_backend :
    hasWhitespace "disk0" = false ∧ "disk0" ∉ exampleServerNil.exports ∧
    nilSupplier 0 = (.ok none, 1) ∧
    (AddExport exampleServerNil "disk0" "first" nilSupplier 0).outcome =
      .panicked nilDereference ∧
    (AddExport (AddExport exampleServerNil "disk0" "first" nilSupplier 0).s "disk0" "second"
      nilSupplier (AddExport exampleServerNil "disk0" "first" nilSupplier 0).w).outcome =
      .returned (some (duplicateExportError "disk0")) := by
  have h1 := AddExport_supplier_ok_panics exampleServerNil "disk0" "first" nilSupplier 0 1 none
    nilDereference (by decide) (by decide) rfl rfl
  have hin : "disk0" ∈ (AddExport exampleServerNil "disk0" "first" nilSupplier 0).s.exports := by
    rw [h1]; simp
  refine ⟨by decide, by decide, rfl, ?_, ?_⟩
  · rw [h1]; rfl
  · rw [AddExport_duplicate _ "disk0" "second" nilSupplier _ (by decide) hin]
    rfl

/-- Claim C3, amended: on a name that is registered, `AddExport` fails without
panic, does not invoke the supplier (empty trace, same environment) and leaves
the server as it is, so the name keeps its export; in a reachable server the
error is the duplicate error. Hence, of two calls with the same name, free of
whitespace and not registered, the supplier of the first returning no error and
a backend on which `String()` returns: the first returns nil, the second gets
the duplicate error without invoking its supplier, and the name keeps the export
of the first. -/
theorem AddExport_registered_name {W β : Type} [Backend β] (s : nbdServer β)
    (name description : String) (b : BackendSupplier W β) (w : W) (hmem : name ∈ s.exports) :
    ((AddExport s name description b w).panic = none ∧
      (AddExport s name description b w).err ≠ none ∧
      (AddExport s name description b w).trace = [] ∧
      (AddExport s name description b w).w = w ∧
      (AddExport s name description b w).s = s) ∧
    (Reachable s → (AddExport s name description b w).err = some (duplicateExportError name)) ∧
    (∀ (s0 : nbdServer β) (n d1 d2 : String) (b1 b2 : BackendSupplier W β) (w0 w1 : W) (be : β)
      (str : String),
      hasWhitespace n = false → n ∉ s0.exports → b1 w0 = (.ok be, w1) →
      Backend.String be = .returned str →
      (AddExport s0 n d1 b1 w0).outcome = .returned none ∧
      (AddExport (AddExport s0 n d1 b1 w0).s n d2 b2 (AddExport s0 n d1 b1 w0).w).outcome =
        .returned (some (duplicateExportError n)) ∧
      (AddExport (AddExport s0 n d1 b1 w0).s n d2 b2 (AddExport s0 n d1 b1 w0).w).trace = [] ∧
      (AddExport (AddExport s0 n d1 b1 w0).s n d2 b2 (AddExport s0 n d1 b1 w0).w).s.exports.lookup n =
        some { Name := n, Description := d1, Backend := be }) := by
  refine ⟨?_, ?_, ?_⟩
  · by_cases h : ContainsAny name " \t" = true
    · rw [AddExport_invalid s name description b w h]
      simp
    · have h0 : ContainsAny name " \t" = false := by simpa using h
      rw [AddExport_duplicate s name description b w h0 hmem]
      simp
  · intro hs
    rw [AddExport_duplicate s name description b w (Reachable.keys_valid s hs name hmem) hmem]
  · intro s0 n d1 d2 b1 b2 w0 w1 be str hn habs hb hstr
    have hv := containsAny_of_hasWhitespace_false n hn
    have h1 := AddExport_supplier_ok s0 n d1 b1 w0 w1 be str hv habs hb hstr
    have hin : n ∈ (AddExport s0 n d1 b1 w0).s.exports := by rw [h1]; simp
    rw [AddExport_duplicate (AddExport s0 n d1 b1 w0).s n d2 b2 (AddExport s0 n d1 b1 w0).w hv hin]
    rw [h1]
    refine ⟨rfl, rfl, rfl, ?_⟩
    simp

/-- Every server built from the example server by one call is reachable. -/
theorem reachable_example (c : Call Nat String) :
    Reachable ((Run.start exampleServer 0).calls [c]).s :=
  ⟨Nat, exampleOpts, { serverInstance := none, heap := [] },
    { serverInstance := some 0, heap := [exampleServer] }, 0, exampleServer, 0, [c],
    rfl, rfl, rfl⟩

/-- Witness of C3, amended: "disk0" is registered by a first call on the empty
registry; a second call with the same name gets the duplicate error. -/
theorem AddExport_registered_name_witness :
    (AddExport (AddExport exampleServer "disk0" "first" (okSupplier "mem") 0).s
      "disk0" "second" (okSupplier "other") 1).err = some (duplicateExportError "disk0") ∧
    (AddExport (AddExport exampleServer "disk0" "first" (okSupplier "mem") 0).s
      "disk0" "second" (okSupplier "other") 1).s =
      (AddExport exampleServer "disk0" "first" (okSupplier "mem") 0).s ∧
    (AddExport (AddExport exampleServer "disk0" "first" (okSupplier "mem") 0).s
      "disk0" "second" (okSupplier "other") (AddExport exampleServer "disk0" "first"
        (okSupplier "mem") 0).w).s.exports.lookup "disk0" =
      some { Name := "disk0", Description := "first", Backend := "mem" } :=
  have h := AddExport_registered_name
    (AddExport exampleServer "disk0" "first" (okSupplier "mem") 0).s
    "disk0" "second" (okSupplier "other") 1 (by decide)
  ⟨h.2.1 (reachable_example (.AddExport "disk0" "first" (okSupplier "mem"))), h.1.2.2.2.2,
    (h.2.2 exampleServer "disk0" "first" "second" (okSupplier "mem") (okSupplier "other") 0 1
      "mem" "mem" (by decide) (by decide) rfl rfl).2.2.2⟩

/-- Claim C4: on a name without whitespace that is not registered, with a
supplier that returns the error `e`, `AddExport` returns an error whose
`Unwrap` is `e`, has invoked the supplier exactly once, and leaves the server as
it is: the name is not registered and the list of exports is what it was. -/
theorem AddExport_supplier_fails {W β : Type} [Backend β] (s : nbdServer β)
    (name description : String) (b : BackendSupplier W β) (w w1 : W) (e : Error)
    (hname : hasWhitespace name = false) (habsent : name ∉ s.exports)
    (hb : b w = (.error e, w1)) :
    (∃ err, (AddExport s name description b w).err = some err ∧ err.Unwrap = some e) ∧
    supplierCalls (AddExport s name description b w).trace = 1 ∧
    Event.supplier (.error e) ∈ (AddExport s name description b w).trace ∧
    (AddExport s name description b w).w = w1 ∧
    (AddExport s name description b w).s = s ∧
    name ∉ (AddExport s name description b w).s.exports ∧
    (∀ order, (exportsAsSlice (AddExport s name description b w).s order).1 =
      (exportsAsSlice s order).1) ∧
    (AddExport s name description b w).panic = none := by
  rw [AddExport_supplier_error s name description b w w1 e
    (containsAny_of_hasWhitespace_false name hname) habsent hb]
  exact ⟨⟨_, rfl, rfl⟩, rfl, by simp, rfl, rfl, habsent, fun _ => rfl, rfl⟩

/-- Witness of C4: a supplier that fails with the error "no memory". -/
theorem AddExport_supplier_fails_witness :
    (∃ err, (AddExport exampleServer "disk0" "first"
        (failSupplier (.errorString "no memory")) 0).err = some err ∧
      err.Unwrap = some (.errorString "no memory")) ∧
    (AddExport exampleServer "disk0" "first" (failSupplier (.errorString "no memory")) 0).s =
      exampleServer :=
  have h := AddExport_supplier_fails exampleServer "disk0" "first"
    (failSupplier (.errorString "no memory")) 0 1 (.errorString "no memory")
    (by decide) (by decide) rfl
  ⟨h.1, h.2.2.2.2.1⟩

/-- Claim C5, at the name "missing" on the empty registry: the name is not
registered and `RemoveExport` returns nil, no error; its body is a note of what
is still to be done and `return nil`. -/
theorem RemoveExport_missing_returns_nil :
    "missing" ∉ exampleServer.exports ∧
    ¬ ((RemoveExport exampleServer "missing").1 ≠ none) := by
  decide

/-- Claim C6: whatever the order in which the loop visits the keys of the map,
`exportsAsSlice` returns a permutation of the exports of the registry, one for
each registered name; an export is in the slice exactly when some name maps to
it; the server is unchanged; for the empty registry the slice is empty. -/
theorem exportsAsSlice_perm {β : Type} (s : nbdServer β) (order : List String)
    (horder : order.Perm s.exports.keys) :
    (exportsAsSlice s order).1.Perm (s.exports.entries.map Sigma.snd) ∧
    (exportsAsSlice s order).1.length = s.exports.keys.length ∧
    (∀ e, e ∈ (exportsAsSlice s order).1 ↔ ∃ k, s.exports.lookup k = some e) ∧
    (exportsAsSlice s order).2 = s ∧
    (s.exports = ∅ → (exportsAsSlice s order).1 = []) := by
  have hperm := exportsAsSlice_perm_values s order horder
  refine ⟨hperm, ?_, exportsAsSlice_mem s order horder, rfl, ?_⟩
  · rw [hperm.length_eq]
    simp [AList.keys, List.keys]
  · intro hempty
    rw [hempty] at hperm
    exact List.Perm.eq_nil hperm

/-- Witness of C6: a registry with the names "a" and "b", visited in the order "a", "b". -/
theorem exportsAsSlice_perm_witness :
    (exportsAsSlice twoExports ["a", "b"]).1.length = 2 ∧
    (exportsAsSlice twoExports ["a", "b"]).1.Perm (twoExports.exports.entries.map Sigma.snd) :=
  have h := exportsAsSlice_perm twoExports ["a", "b"] (List.Perm.swap _ _ [])
  ⟨h.2.1, h.1⟩

/-- Claim C7 as stated fails: one registration, of the name "a", free of
whitespace and not registered, whose supplier returns the nil interface and a
nil error: the call does not return nil, it panics at `be.String()`. -/
theorem AddExport_distinct_names_nil_backend :
    hasWhitespace "a" = false ∧ "a" ∉ exampleServerNil.exports ∧
    nilSupplier 0 = (.ok none, 1) ∧
    ((Run.start exampleServerNil 0).calls
      [Registration.toCall ("a", "one", nilSupplier)]).results = [.panicked nilDereference] := by
  refine ⟨by decide, by decide, rfl, ?_⟩
  show [(AddExport exampleServerNil "a" "one" nilSupplier 0).outcome] = [.panicked nilDereference]
  rw [AddExport_supplier_ok_panics exampleServerNil "a" "one" nilSupplier 0 1 none
    nilDereference (by decide) (by decide) rfl rfl]
  rfl

/-- Claim C7, amended: registrations whose names are pairwise distinct, free of
whitespace and not registered, made in any order `order` (a permutation of the
list), every supplier invocation of the run having succeeded (it returned no
error, and a backend on which `String()` returns): every call returns nil, and a
list taken afterwards contains an export for each of the names, with its
description, and every export that a list taken before contained. -/
theorem AddExport_distinct_names {W β : Type} [Backend β] (s : nbdServer β) (w : W)
    (adds order : List (Registration W β)) (horder : order.Perm adds)
    (hdistinct : (adds.map Prod.fst).Nodup)
    (hvalid : ∀ a ∈ adds, hasWhitespace a.1 = false)
    (habsent : ∀ a ∈ adds, a.1 ∉ s.exports)
    (hsucceed : ∀ res,
      Event.supplier res ∈ ((Run.start s w).calls (order.map Registration.toCall)).trace →
      Succeeded res) :
    ((Run.start s w).calls (order.map Registration.toCall)).results =
      List.replicate adds.length (.returned none) ∧
    ∀ visit, visit.Perm ((Run.start s w).calls (order.map Registration.toCall)).s.exports.keys →
      (∀ a ∈ adds, ∃ e ∈ (exportsAsSlice
          ((Run.start s w).calls (order.map Registration.toCall)).s visit).1,
        e.Name = a.1 ∧ e.Description = a.2.1) ∧
      (∀ visit0, visit0.Perm s.exports.keys → ∀ e ∈ (exportsAsSlice s visit0).1,
        e ∈ (exportsAsSlice ((Run.start s w).calls (order.map Registration.toCall)).s visit).1) := by
  have hnd : (order.map Prod.fst).Nodup := (horder.map Prod.fst).nodup_iff.2 hdistinct
  obtain ⟨herrs, hreg⟩ := Run.calls_registrations order (Run.start s w) hnd
    (fun a ha => hvalid a (horder.subset ha)) (fun a ha => habsent a (horder.subset ha))
    hsucceed
  refine ⟨?_, ?_⟩
  · rw [herrs, horder.length_eq]
    simp [Run.start]
  · intro visit hvisit
    refine ⟨?_, ?_⟩
    · intro a ha
      obtain ⟨be, hbe⟩ := hreg a (horder.symm.subset ha)
      exact ⟨_, (exportsAsSlice_mem _ visit hvisit _).2 ⟨a.1, hbe⟩, rfl, rfl⟩
    · intro visit0 hvisit0 e he
      obtain ⟨k, hk⟩ := (exportsAsSlice_mem s visit0 hvisit0 e).1 he
      exact (exportsAsSlice_mem _ visit hvisit e).2
        ⟨k, Run.calls_lookup_stable (Run.start s w) _ k e hk⟩

/-- Witness of C7, amended: "a" and "b" registered on the empty registry, "b" first. -/
theorem AddExport_distinct_names_witness :
    ((Run.start exampleServer 0).calls (List.map Registration.toCall
      [("b", "two", okSupplier "m2"), ("a", "one", okSupplier "m1")])).results =
      [.returned none, .returned none] :=
  (AddExport_distinct_names exampleServer 0
    [("a", "one", okSupplier "m1"), ("b", "two", okSupplier "m2")]
    [("b", "two", okSupplier "m2"), ("a", "one", okSupplier "m1")]
    (List.Perm.swap _ _ []) (by decide) (by decide) (by decide)
    (by
      intro res hres
      have htrace : ((Run.start exampleServer 0).calls (List.map Registration.toCall
          [("b", "two", okSupplier "m2"), ("a", "one", okSupplier "m1")])).trace =
          [.log "requesting backend for export [b]", .supplier (.ok "m2"),
            .log "added export [b] with backend m2",
            .log "requesting backend for export [a]", .supplier (.ok "m1"),
            .log "added export [a] with backend m1"] := rfl
      rw [htrace] at hres
      simp only [List.mem_cons, List.mem_singleton, List.not_mem_nil, or_false,
        Event.supplier.injEq, reduceCtorEq, false_or] at hres
      rcases hres with rfl | rfl
      · exact ⟨"m2", "m2", rfl, rfl⟩
      · exact ⟨"m1", "m1", rfl, rfl⟩)).1

/-- Claim C8: in every state that a server returned by `NewServer` reaches by a
sequence of `AddExport` and `RemoveExport` calls, an entry under the key `k` is
an export with name `k` whose description and backend are those of a call of
`AddExport` for `k`, the backend being what the supplier of that call returned
without error (the return is in the trace); the names in a list of the exports
are pairwise distinct; and further calls leave every registered name with the
export it has. -/
theorem registry_invariant {W β : Type} [Backend β] (opts : ServerOptions) (p p1 : Package β)
    (ptr : Nat) (s0 : nbdServer β) (w : W) (cs : List (Call W β))
    (hnew : NewServer opts p = (.returned (ptr, none), p1)) (hs0 : p1.heap[ptr]? = some s0) :
    (∀ k e, ((Run.start s0 w).calls cs).s.exports.lookup k = some e →
      e.Name = k ∧ Event.supplier (.ok e.Backend) ∈ ((Run.start s0 w).calls cs).trace ∧
      ∃ b w1 w2, Call.AddExport k e.Description b ∈ cs ∧ b w1 = (.ok e.Backend, w2)) ∧
    (∀ order, order.Perm ((Run.start s0 w).calls cs).s.exports.keys →
      ((exportsAsSlice ((Run.start s0 w).calls cs).s order).1.map Export.Name).Nodup) ∧
    (∀ k e, ((Run.start s0 w).calls cs).s.exports.lookup k = some e →
      ∀ more, (((Run.start s0 w).calls cs).calls more).s.exports.lookup k = some e) := by
  have hempty : s0.exports = ∅ := by
    rw [(NewServer_returned opts p p1 ptr none s0 hnew hs0).2.2.1]
  have hentries := Run.calls_entries s0 w hempty cs
  exact ⟨hentries,
    fun visit hvisit => exportsAsSlice_names_nodup _ (fun k e h => (hentries k e h).1) visit hvisit,
    fun k e h more => Run.calls_lookup_stable _ more k e h⟩

/-- Witness of C8: a new server on which "a" is registered, removed, and
registered again with another description: "a" keeps its first export. -/
theorem registry_invariant_witness :
    ((Run.start exampleServer 0).calls [.AddExport "a" "one" (okSupplier "m1"),
      .RemoveExport "a", .AddExport "a" "again" (okSupplier "m2")]).s.exports.lookup "a" =
      some { Name := "a", Description := "one", Backend := "m1" } :=
  (registry_invariant exampleOpts { serverInstance := none, heap := [] }
    { serverInstance := some 0, heap := [exampleServer] } 0 exampleServer 0
    [.AddExport "a" "one" (okSupplier "m1")] rfl rfl).2.2 "a"
    { Name := "a", Description := "one", Backend := "m1" } (by decide)
    [.RemoveExport "a", .AddExport "a" "again" (okSupplier "m2")]

/-- Claim C9: whatever the session handler does (it returns nil, returns an
error, or panics), `startServing` returns without a panic going on to its
caller, the connection has been closed, and the registry, which the other
sessions and the accept loop share, is as it was. -/
theorem startServing_traps {β : Type} (s : nbdServer β) (conn : Conn) (Handle : Handler β)
    (order : List String) :
    (startServing s conn Handle order).panic = none ∧
    (startServing s conn Handle order).conn.closed = true ∧
    (startServing s conn Handle order).s.exports = s.exports := by
  unfold startServing
  exact trapPanic_recovers s _ _

/-- Claim C10 as stated fails: in a process without a server, the first call of
`NewServer` returns a server and the second call panics. -/
theorem NewServer_second_call_panics :
    (NewServer exampleOpts ({ serverInstance := none, heap := [] } : Package String)).1 =
      .returned (0, none) ∧
    (NewServer exampleOpts
      (NewServer exampleOpts ({ serverInstance := none, heap := [] } : Package String)).2).1 =
      .panicked (.str "cannot have two server instances") :=
  ⟨rfl, rfl⟩

/-- Claim C10, amended: in a process in which no server has been constructed
(`serverInstance` is nil), `NewServer` returns, without error or panic, a new
server with the given options and an empty registry, and records it in
`serverInstance`; every call of `NewServer` made after it, whatever the options,
panics with "cannot have two server instances" and constructs nothing. -/
theorem NewServer_once {β : Type} (opts1 opts2 : ServerOptions) (p : Package β)
    (hfirst : p.serverInstance = none) :
    (NewServer opts1 p).1 = .returned (p.heap.length, none) ∧
    (NewServer opts1 p).2.heap[p.heap.length]? = some { opts := opts1, exports := ∅ } ∧
    (NewServer opts1 p).2.serverInstance = some p.heap.length ∧
    NewServer opts2 (NewServer opts1 p).2 =
      (.panicked (.str "cannot have two server instances"), (NewServer opts1 p).2) := by
  simp [NewServer, hfirst]

/-- Witness of C10, amended: a process without a server. -/
theorem NewServer_once_witness :
    (NewServer exampleOpts ({ serverInstance := none, heap := [] } : Package String)).1 =
      .returned (0, none) :=
  (NewServer_once exampleOpts exampleOpts
    ({ serverInstance := none, heap := [] } : Package String) rfl).1

end GoNbd
